import Mathlib

/-!
Verification of the scheduling and dispatch engine of the calendar-to-SMS
service (cali-calendar-ai).

The TypeScript services are embedded shallowly:

* `schedulerService.ts` — `checkIfTimeToSend`, `sentToday`, and the per-user
  body of the hourly cron loop (`processUser`, `schedulerTick`).
* `smsService.ts` — `sendSMS`, `sendDailySummary`.  The dispatch is embedded
  as a pure function returning an effect trace (`DispatchTrace`): the list of
  transport invocations, the SMS-history entries appended, the user record
  after all storage writes, and the returned value or thrown error.
* `calendarService.ts` — `refreshAccessToken`, `ensureValidToken`,
  `getEventsForNext24Hours`, `formatEventForSMS`, `groupEventsByTimeOfDay`,
  `formatCalendarSummary`.
* `claudeService.ts` — `generateCalendarMessage`.
* `userStorageService.ts` — `getAllUsers` over blob storage.

External effects (the timezone database, the Twilio transport, the Graph
provider, MSAL token acquisition, Anthropic API, Azure blob storage) are
modelled as fields of a `World` record giving the outcome each call would
produce during the one run under consideration.  Instants are milliseconds
since the epoch (`Int`); a timezone is a `LocalClock` mapping an instant to
a local calendar date code, hour and minute, as `toLocaleTimeString` /
`toLocaleDateString` with a `timeZone` option do.  Errors thrown by the
TypeScript code are `Except.error` values carrying the thrown message.
-/

/-! ### JavaScript string primitives

The services use `s.split(sep)[0]`, `s.split(sep)[1]`, `String.prototype.replace`
(first occurrence only) and `String.prototype.includes`.  They are modelled on
`List Char` and wrapped for `String`. -/

/-- Everything strictly before the first occurrence of `sep`, and the rest
after it; `none` when `sep` does not occur.  An empty `sep` matches at the
front, as in JavaScript. -/
def breakFirstL (sep : List Char) : List Char → Option (List Char × List Char)
  | [] => if sep.isPrefixOf ([] : List Char) then some ([], []) else none
  | c :: rest =>
    if sep.isPrefixOf (c :: rest) then some ([], (c :: rest).drop sep.length)
    else (breakFirstL sep rest).map (fun p => (c :: p.1, p.2))

/-- `s.split(sep)[0]`: the prefix of `s` before the first occurrence of `sep`,
or all of `s` when `sep` does not occur. -/
def jsSplitHead (sep s : String) : String :=
  match breakFirstL sep.data s.data with
  | some p => String.mk p.1
  | none => s

/-- `s.split(sep)[1]`: the segment between the first and second occurrences of
`sep` (`none` when `sep` does not occur at all). -/
def jsSplitSecond (sep s : String) : Option String :=
  match breakFirstL sep.data s.data with
  | some p => some (jsSplitHead sep (String.mk p.2))
  | none => none

/-- `hay.includes(pat)` on character lists. -/
def containsSubL (pat : List Char) : List Char → Bool
  | [] => pat.isEmpty
  | c :: rest => pat.isPrefixOf (c :: rest) || containsSubL pat rest

/-- `hay.includes(pat)`. -/
def containsSub (hay pat : String) : Bool :=
  containsSubL pat.data hay.data

/-- `s.replace(pat, rep)` with a string pattern: JavaScript replaces only the
first occurrence; when the pattern does not occur the string is unchanged. -/
def jsReplaceFirstL (pat rep : List Char) : List Char → List Char
  | [] => if pat.isEmpty then rep else []
  | c :: rest =>
    if pat.isPrefixOf (c :: rest) then rep ++ (c :: rest).drop pat.length
    else c :: jsReplaceFirstL pat rep rest

/-- `s.replace(pat, rep)` (first occurrence only). -/
def jsReplaceFirst (s pat rep : String) : String :=
  String.mk (jsReplaceFirstL pat.data rep.data s.data)

/-- Two-digit zero-padded rendering used by `Intl` `'2-digit'` fields. -/
def two (n : Nat) : String :=
  if n < 10 then "0" ++ toString n else toString n

/-! ### Time model -/

/-- One timezone's view of instants, as produced by `toLocaleDateString` /
`toLocaleTimeString` with a `timeZone` option: a calendar-date code (equal
codes iff the formatted `M/D/YYYY` strings are equal), the local hour
(`hour12:false` resolves to the h23 cycle, so `0 ≤ hour < 24`), the local
minute, and the `weekday:'long'` name. -/
structure LocalClock where
  localDate : Int → Int
  localHour : Int → Nat
  localMinute : Int → Nat
  weekdayOf : Int → String
  hour_lt : ∀ t, localHour t < 24

/-! ### Data model (`userStorageService.ts` blob records) -/

/-- `messageStyle` enumeration from `models/User.ts`. -/
inductive MessageStyle where
  | professional
  | witty
  | sarcastic
  | mission
deriving DecidableEq

/-- A family member (delegate SMS recipient). -/
structure FamilyMember where
  id : String
  name : String
  phone : String
  isActive : Bool
deriving DecidableEq

/-- An event created by a family member through the join flow
(`ManualEvent` in `userStorageService.ts`); `start`/`end` are stored as
ISO strings, modelled by the instants they denote. -/
structure ManualEvent where
  id : String
  subject : String
  start : Int
  stop : Int
  location : Option String
  isAllDay : Bool
  createdBy : String
deriving DecidableEq

/-- One SMS-history record (`SmsHistoryEntry` in `userStorageService.ts`);
the generated `id`/`sentAt` bookkeeping fields are omitted. -/
structure SmsHistoryEntry where
  message : String
  recipientPhone : String
  recipientName : Option String
  messageStyle : MessageStyle
  eventCount : Nat
deriving DecidableEq

/-- A stored user (`StoredUser` in `userStorageService.ts`).  `phone` is `""`
when unset (the falsy check `!user.phone`); `timezone` is `none` when the
JSON record lacks the field — the TypeScript interface declares it required
but the scheduler reads the record as `any` and storage performs no
validation; `lastSmsSentDate` stores the instant whose ISO string was
written. -/
structure StoredUser where
  id : String
  email : String
  phone : String
  accessToken : String
  tokenExpiresAt : Int
  timezone : Option String
  smsTime : String
  isActive : Bool
  messageStyle : MessageStyle
  familyMembers : List FamilyMember
  manualEvents : List ManualEvent
  smsHistory : List SmsHistoryEntry
  lastSmsSentDate : Option Int
deriving DecidableEq

/-- A raw event from Microsoft Graph (`CalendarEvent` in
`calendarService.ts`); `start.dateTime`/`end.dateTime` modelled by the
instants they parse to. -/
structure CalendarEvent where
  subject : String
  start : Int
  stop : Int
  location : Option String
  isAllDay : Bool
deriving DecidableEq

/-- A normalized event (`FormattedEvent` in `calendarService.ts`). -/
structure FormattedEvent where
  title : String
  start : Int
  stop : Int
  location : Option String
  isAllDay : Bool
  formattedTime : String
deriving DecidableEq

/-- A text block of an Anthropic API response. -/
structure ClaudeBlock where
  type : String
  text : String
deriving DecidableEq

/-- Outcomes of the external calls one scheduler/dispatch run performs.
`tzdb` returns `none` for an identifier `Intl` rejects (a `RangeError`);
`sms` is the outcome of the body of one `sendSMS` call keyed by recipient
number; `acquireToken` is MSAL's `acquireTokenSilent` (`some` access token,
`none` for a null response); `provider` is the Graph `calendarview` call;
`claudeApi` is the Anthropic `messages.create` call. -/
structure World where
  tzdb : String → Option LocalClock
  sysClock : LocalClock
  now : Int
  decrypt : String → Except String String
  acquireToken : Except String (Option String)
  refreshUpdateOk : Bool
  provider : Except String (List CalendarEvent)
  claudeConfigured : Bool
  claudeApi : Except String (List ClaudeBlock)
  sms : String → Except String String

/-- `Intl` timezone resolution: an absent `timeZone` option falls back to the
process's own zone; an invalid identifier is rejected. -/
def resolveClock (w : World) : Option String → Option LocalClock
  | none => some w.sysClock
  | some tz => w.tzdb tz

/-! ### `calendarService.ts` -/

/-- `refreshAccessToken`: decrypt the stored token (a decryption failure is
swallowed here), acquire a fresh token silently, persist it; any failure in
the body is caught and rethrown as the single re-authentication message.
`encrypt`/`newExpiry` of the refresh are folded into the persisted record. -/
def refreshAccessToken (w : World) (user : StoredUser) : Except String StoredUser :=
  let body : Except String StoredUser :=
    match w.decrypt user.accessToken with
    | .error e => .error e
    | .ok _ =>
      match w.acquireToken with
      | .error e => .error e
      | .ok none => .error "Failed to refresh access token"
      | .ok (some tok) =>
        if w.refreshUpdateOk then
          .ok { user with accessToken := tok, tokenExpiresAt := w.now + 3600000 }
        else .error "Failed to update user with new token"
  match body with
  | .ok u => .ok u
  | .error _ => .error "Failed to refresh access token. User may need to re-authenticate."

/-- `ensureValidToken`: refresh when the token expires within five minutes. -/
def ensureValidToken (w : World) (user : StoredUser) : Except String StoredUser :=
  if user.tokenExpiresAt - w.now < 5 * 60 * 1000 then refreshAccessToken w user
  else .ok user

/-- `hour12:true, hour:'numeric', minute:'2-digit'` rendering of an instant in
a zone, as `formatEventTime` produces for one endpoint. -/
def fmt12 (c : LocalClock) (t : Int) : String :=
  let h := c.localHour t
  let hr := if h % 12 = 0 then 12 else h % 12
  toString hr ++ ":" ++ two (c.localMinute t) ++ " " ++ (if h < 12 then "AM" else "PM")

/-- `formatEventTime`: `"All Day"` for all-day events, otherwise both
endpoints rendered in the user's zone; an invalid zone makes
`toLocaleString` throw. -/
def formatEventTime (w : World) (tz : Option String) (start stop : Int)
    (isAllDay : Bool) : Except String String :=
  if isAllDay then .ok "All Day"
  else
    match resolveClock w tz with
    | none => .error "RangeError: invalid time zone specified"
    | some c => .ok (fmt12 c start ++ " - " ++ fmt12 c stop)

/-- `formatEvent`: normalize one Graph event. -/
def formatEvent (w : World) (tz : Option String) (e : CalendarEvent) :
    Except String FormattedEvent := do
  let ft ← formatEventTime w tz e.start e.stop e.isAllDay
  pure ⟨e.subject, e.start, e.stop, e.location, e.isAllDay, ft⟩

/-- `getEventsForNext24Hours`: ensure a valid token, decrypt it, fetch the
provider window, normalize.  The catch rewrites a decryption failure to
`TOKEN_DECRYPTION_ERROR` and everything else to the one generic message.
The account's `manualEvents` are never consulted. -/
def getEventsForNext24Hours (w : World) (user : StoredUser) :
    Except String (List FormattedEvent) :=
  let body : Except String (List FormattedEvent) :=
    match ensureValidToken w user with
    | .error e => .error e
    | .ok validUser =>
      match w.decrypt validUser.accessToken with
      | .error e => .error e
      | .ok _ =>
        match w.provider with
        | .error e => .error e
        | .ok events => events.mapM (formatEvent w validUser.timezone)
  match body with
  | .ok evs => .ok evs
  | .error e =>
    if containsSub e "Failed to decrypt token" then .error "TOKEN_DECRYPTION_ERROR"
    else .error "Failed to fetch calendar events"

/-- `formatEventForSMS`; the location is appended only when truthy
(present and nonempty). -/
def formatEventForSMS (ev : FormattedEvent) : String :=
  ev.formattedTime ++ " - " ++ ev.title ++
    (match ev.location with
     | some l => if l = "" then "" else " (" ++ l ++ ")"
     | none => "")

/-- The three buckets built by `groupEventsByTimeOfDay`. -/
structure EventGroups where
  morning : List FormattedEvent
  afternoon : List FormattedEvent
  evening : List FormattedEvent
deriving DecidableEq

/-- `groupEventsByTimeOfDay`: a reduce pushing each event into a bucket by
`event.start.getHours()` — the hour in the process's own zone. -/
def groupEventsByTimeOfDay (w : World) (events : List FormattedEvent) : EventGroups :=
  events.foldl
    (fun g e =>
      let hour := w.sysClock.localHour e.start
      if hour < 12 then { g with morning := g.morning ++ [e] }
      else if hour < 17 then { g with afternoon := g.afternoon ++ [e] }
      else { g with evening := g.evening ++ [e] })
    ⟨[], [], []⟩

/-- `formatCalendarSummary` (grouped variant): free-day message for an empty
list; otherwise a header with count and span, then either morning / afternoon
/ evening sections (more than four events) or a flat numbered list, then the
closing line.  `dayName` is `toLocaleDateString` with only a weekday option,
hence the process's own zone. -/
def formatCalendarSummary (w : World) (events : List FormattedEvent)
    (userName : String) : String :=
  let dayName := w.sysClock.weekdayOf w.now
  let namePart := if userName = "" then "" else " " ++ userName
  match events with
  | [] =>
    "Good morning" ++ namePart ++ "! Free day ahead - no events scheduled for "
      ++ dayName ++ ". Enjoy!"
  | e0 :: rest =>
    let evs := e0 :: rest
    let greeting := "Good morning" ++ namePart ++ "!"
    let count :=
      if evs.length = 1 then "1 event" else toString evs.length ++ " events"
    let firstTime := jsSplitHead " - " e0.formattedTime
    let lastEvent := evs.getLast (by simp)
    let lastTime :=
      match jsSplitSecond " - " lastEvent.formattedTime with
      | some t => if t = "" then lastEvent.formattedTime else t
      | none => lastEvent.formattedTime
    let header :=
      greeting ++ " " ++ count ++ " today (" ++ firstTime ++ " - " ++ lastTime
        ++ "):\n\n"
    let body :=
      if evs.length > 4 then
        let groups := groupEventsByTimeOfDay w evs
        let m :=
          if groups.morning.length > 0 then
            groups.morning.foldl
              (fun acc e => acc ++ "• " ++ formatEventForSMS e ++ "\n")
              ("Morning (" ++ toString groups.morning.length ++ "):\n") ++ "\n"
          else ""
        let a :=
          if groups.afternoon.length > 0 then
            groups.afternoon.foldl
              (fun acc e => acc ++ "• " ++ formatEventForSMS e ++ "\n")
              ("Afternoon (" ++ toString groups.afternoon.length ++ "):\n") ++ "\n"
          else ""
        let ev :=
          if groups.evening.length > 0 then
            groups.evening.foldl
              (fun acc e => acc ++ "• " ++ formatEventForSMS e ++ "\n")
              ("Evening (" ++ toString groups.evening.length ++ "):\n")
          else ""
        m ++ a ++ ev
      else
        evs.enum.foldl
          (fun acc p => acc ++ toString (p.1 + 1) ++ ". " ++ formatEventForSMS p.2 ++ "\n")
          ""
    header ++ body ++ "\nHave a great day!"

/-! ### `claudeService.ts` -/

/-- `generateCalendarMessage`: call the Anthropic API (the events, name and
style shape only the prompt), pick the first `text` block, trim it; any
failure in the body is rethrown wrapped.  The client is only constructed
when the API key exists, which the caller has already checked. -/
def generateCalendarMessage (w : World) (_events : List FormattedEvent)
    (_userName : String) (_style : MessageStyle) : Except String String :=
  let body : Except String String :=
    match w.claudeApi with
    | .error e => .error e
    | .ok blocks =>
      match blocks.find? (fun b => b.type == "text") with
      | none => .error "No text content in Claude response"
      | some b => .ok b.text.trim
  match body with
  | .ok m => .ok m
  | .error e => .error ("Failed to generate message: " ++ e)

/-! ### `smsService.ts`

The dispatch is embedded as a pure function producing an effect trace: the
transport invocations in order, the SMS-history entries appended, the user
record after all writes performed before a throw, and the returned SID or the
thrown message.  Storage writes inside the dispatch are taken to succeed
(blob-storage failure is modelled separately for `getAllUsers`); the stamp
instant is the dispatch's `w.now`. -/

/-- `sendSMS`: one transport call; a rejection is rethrown wrapped. -/
def sendSMS (w : World) (toNumber _message : String) : Except String String :=
  match w.sms toNumber with
  | .ok sid => .ok sid
  | .error e => .error ("Failed to send SMS: " ++ e)

/-- Effect of `userStorage.addSmsHistoryEntry` on the user record: push the
entry at the front, keep at most 100. -/
def addSmsHistory (user : StoredUser) (entry : SmsHistoryEntry) : StoredUser :=
  { user with smsHistory := (entry :: user.smsHistory).take 100 }

/-- The message-composition step of `sendDailySummary`: the Claude path when
configured, falling back to the deterministic formatter on any error. -/
def composeStep (w : World) (events : List FormattedEvent) (userName : String)
    (style : MessageStyle) : String :=
  if w.claudeConfigured then
    match generateCalendarMessage w events userName style with
    | .ok m => m
    | .error _ => formatCalendarSummary w events userName
  else formatCalendarSummary w events userName

deriving instance DecidableEq for Except

/-- One transport invocation as recorded in a dispatch trace. -/
structure Attempt where
  phone : String
  message : String
  ok : Bool
deriving DecidableEq

/-- The observable effects of one `sendDailySummary` run. -/
structure DispatchTrace where
  attempts : List Attempt
  historyAdded : List SmsHistoryEntry
  userAfter : StoredUser
  result : Except String String
deriving DecidableEq

/-- Accumulator of the family-member loop. -/
structure LoopState where
  attempts : List Attempt
  historyAdded : List SmsHistoryEntry
  user : StoredUser
deriving DecidableEq

/-- One iteration of the family-member loop: personalize (JavaScript
`replace` substitutes the first occurrence of the owner's name), send, and
on success record a history entry; a failure is caught and the loop
continues. -/
def familyStep (w : World) (message userName : String) (style : MessageStyle)
    (eventCount : Nat) (st : LoopState) (member : FamilyMember) : LoopState :=
  let familyMessage := jsReplaceFirst message userName member.name
  match sendSMS w member.phone familyMessage with
  | .ok _ =>
    let entry : SmsHistoryEntry :=
      ⟨familyMessage, member.phone, some member.name, style, eventCount⟩
    ⟨st.attempts ++ [⟨member.phone, familyMessage, true⟩],
     st.historyAdded ++ [entry], addSmsHistory st.user entry⟩
  | .error _ =>
    ⟨st.attempts ++ [⟨member.phone, familyMessage, false⟩],
     st.historyAdded, st.user⟩

/-- `sendDailySummary`: require a phone, fetch the 24-hour window, compose,
send to the owner, record history, loop over active family members, and only
then stamp `lastSmsSentDate`.  Any uncaught error is rethrown wrapped in
`Failed to send daily summary: `. -/
def sendDailySummary (w : World) (user : StoredUser) : DispatchTrace :=
  if user.phone = "" then
    ⟨[], [], user,
     .error "Failed to send daily summary: User does not have a phone number set"⟩
  else
    match getEventsForNext24Hours w user with
    | .error e => ⟨[], [], user, .error ("Failed to send daily summary: " ++ e)⟩
    | .ok events =>
      let userName := jsSplitHead "@" user.email
      let message := composeStep w events userName user.messageStyle
      match sendSMS w user.phone message with
      | .error e =>
        ⟨[⟨user.phone, message, false⟩], [], user,
         .error ("Failed to send daily summary: " ++ e)⟩
      | .ok sid =>
        let entry0 : SmsHistoryEntry :=
          ⟨message, user.phone, none, user.messageStyle, events.length⟩
        let u1 := addSmsHistory user entry0
        let active := user.familyMembers.filter (fun m => m.isActive)
        let fin := active.foldl
          (familyStep w message userName user.messageStyle events.length)
          ⟨[⟨user.phone, message, true⟩], [entry0], u1⟩
        ⟨fin.attempts, fin.historyAdded,
         { fin.user with lastSmsSentDate := some w.now }, .ok sid⟩

/-! ### `schedulerService.ts` -/

/-- `checkIfTimeToSend`: format the current time in the user's zone as
`HH:MM`, compare the text before the first colon with the text before the
first colon of `user.smsTime`.  The whole body is wrapped in a try/catch
returning `false`, so an invalid timezone yields `false`; an absent
timezone silently uses the process's own zone. -/
def checkIfTimeToSend (w : World) (user : StoredUser) : Bool :=
  match resolveClock w user.timezone with
  | none => false
  | some c =>
    let userTimeString := two (c.localHour w.now) ++ ":" ++ two (c.localMinute w.now)
    jsSplitHead ":" userTimeString == jsSplitHead ":" user.smsTime

/-- `sentToday`: `false` when no send is recorded; otherwise compare the
formatted local calendar dates of the recorded instant and of now.  Unlike
`checkIfTimeToSend` this function has no try/catch, so an invalid timezone
throws out of it. -/
def sentToday (w : World) (user : StoredUser) : Except String Bool :=
  match user.lastSmsSentDate with
  | none => .ok false
  | some lastSent =>
    match resolveClock w user.timezone with
    | none => .error "RangeError: invalid time zone specified"
    | some c => .ok (c.localDate lastSent == c.localDate w.now)

/-- What one iteration of the scheduler loop did for one user. -/
inductive ProcessOutcome where
  | dispatched (tr : DispatchTrace)
  | skipped
  | gateError
deriving DecidableEq

/-- The per-user body of the scheduler loop: evaluate both gate checks, then
dispatch when due.  The per-user try/catch turns an exception from
`sentToday` into a logged skip (`gateError`); an exception thrown by the
dispatch is likewise caught there, so it is the trace, not an exception,
that escapes. -/
def processUser (w : World) (user : StoredUser) : ProcessOutcome :=
  let shouldSend := checkIfTimeToSend w user
  match sentToday w user with
  | .error _ => .gateError
  | .ok alreadySent =>
    if shouldSend && !alreadySent then .dispatched (sendDailySummary w user)
    else .skipped

/-- One scheduler tick: filter the active users and run the per-user body on
each; no user's outcome affects the others. -/
def schedulerTick (w : World) (allUsers : List StoredUser) : List ProcessOutcome :=
  (allUsers.filter (fun u => u.isActive)).map (processUser w)

/-! ### `userStorageService.ts` — `getAllUsers` -/

/-- A record as it sits in the users blob: possibly a legacy Mongo `_id`,
possibly an `id`, and the rest of the JSON object (opaque here). -/
structure BlobUser where
  mId : Option String
  uid : Option String
  rest : String
deriving DecidableEq

/-- Outcome of `JSON.parse` on the blob followed by the `Array.isArray`
check. -/
inductive ParseOutcome where
  | fail
  | notArray
  | array (users : List BlobUser)
deriving DecidableEq

/-- Outcomes of the storage calls one `getAllUsers` run performs. -/
structure BlobWorld where
  connOk : Bool
  containerOk : Bool
  blobExists : Bool
  downloadOk : Bool
  parsed : ParseOutcome
  saveOk : Bool
deriving DecidableEq

/-- The `_id` → `id` migration applied to one record. -/
def migrateUser (u : BlobUser) : BlobUser :=
  if u.mId.isSome && u.uid.isNone then { u with uid := u.mId, mId := none } else u

/-- The try-block body of `getAllUsers`: connect, ensure the container, check
blob existence (an absent blob is an early `[]`, not an exception), download,
parse (a non-array is an early `[]`), migrate legacy records and persist the
migration when one occurred. -/
def getAllUsersBody (b : BlobWorld) : Except String (List BlobUser) :=
  if !b.connOk then
    .error "Azure Storage connection string not configured. Cannot operate without storage."
  else if !b.containerOk then .error "container create failed"
  else if !b.blobExists then .ok []
  else if !b.downloadOk then .error "blob download failed"
  else
    match b.parsed with
    | .fail => .error "Unexpected token in JSON"
    | .notArray => .ok []
    | .array users =>
      let needsMigration := users.any (fun u => u.mId.isSome && u.uid.isNone)
      if needsMigration && !b.saveOk then .error "blob upload failed"
      else .ok (users.map migrateUser)

/-- `getAllUsers`: the body with its catch-all returning `[]`. -/
def getAllUsers (b : BlobWorld) : List BlobUser :=
  match getAllUsersBody b with
  | .ok users => users
  | .error _ => []

/-! ### Specification-side abbreviations

Names for the values a dispatch computes, used to state properties of
`sendDailySummary` without repeating its body. -/

/-- `true` exactly when an `Except` value is a success. -/
def exceptOk : Except String String → Bool
  | .ok _ => true
  | .error _ => false

/-- The display name a dispatch derives: `user.email.split('@')[0]`. -/
def dispatchName (u : StoredUser) : String := jsSplitHead "@" u.email

/-- The message a dispatch composes for a given fetched event list. -/
def dispatchMsg (w : World) (u : StoredUser) (evs : List FormattedEvent) : String :=
  composeStep w evs (dispatchName u) u.messageStyle

/-- The active family members of a user, in order. -/
def activeOf (u : StoredUser) : List FamilyMember :=
  u.familyMembers.filter (fun m => m.isActive)

/-- The transport attempt the family loop performs for one member. -/
def attOf (w : World) (msg nm : String) (m : FamilyMember) : Attempt :=
  ⟨m.phone, jsReplaceFirst msg nm m.name, exceptOk (w.sms m.phone)⟩

/-- The history entry the family loop records for one successful member. -/
def entryOf (msg nm : String) (sty : MessageStyle) (n : Nat) (m : FamilyMember) :
    SmsHistoryEntry :=
  ⟨jsReplaceFirst msg nm m.name, m.phone, some m.name, sty, n⟩

/-- The transport attempts a scheduler outcome performed. -/
def attemptsOf : ProcessOutcome → List Attempt
  | .dispatched tr => tr.attempts
  | _ => []

/-! ### Specification-side rendering

These definitions follow the wording of the specification for the grouped /
flat rendering policy, to be compared with `formatCalendarSummary`. -/

/-- One bullet line per event, as a bucket section renders them. -/
def bulletLines : List FormattedEvent → String
  | [] => ""
  | e :: rest => "• " ++ formatEventForSMS e ++ "\n" ++ bulletLines rest

/-- A non-empty bucket renders its label, its item count and exactly its
events; an empty bucket renders nothing. -/
def sectionBlock (label : String) (evs : List FormattedEvent) (trailing : String) : String :=
  if evs.length > 0 then
    label ++ " (" ++ toString evs.length ++ "):\n" ++ bulletLines evs ++ trailing
  else ""

/-- A flat numbered list with exactly one entry per event, numbering from
`i + 1`. -/
def numberedFrom (i : Nat) : List FormattedEvent → String
  | [] => ""
  | e :: rest =>
    toString (i + 1) ++ ". " ++ formatEventForSMS e ++ "\n" ++ numberedFrom (i + 1) rest

/-- The events whose process-local start hour is before 12. -/
def morningOf (w : World) (evs : List FormattedEvent) : List FormattedEvent :=
  evs.filter (fun e => w.sysClock.localHour e.start < 12)

/-- The events whose process-local start hour is 12 to before 17. -/
def afternoonOf (w : World) (evs : List FormattedEvent) : List FormattedEvent :=
  evs.filter (fun e => 12 ≤ w.sysClock.localHour e.start && w.sysClock.localHour e.start < 17)

/-- The events whose process-local start hour is 17 or later. -/
def eveningOf (w : World) (evs : List FormattedEvent) : List FormattedEvent :=
  evs.filter (fun e => 17 ≤ w.sysClock.localHour e.start)

/-- The greeting/count/span header of a non-empty summary, transcribed from
`formatCalendarSummary` so the structural theorem can name it. -/
def summaryHeader (events : List FormattedEvent) (userName : String) : String :=
  let namePart := if userName = "" then "" else " " ++ userName
  match events with
  | [] => ""
  | e0 :: rest =>
    let evs := e0 :: rest
    let greeting := "Good morning" ++ namePart ++ "!"
    let count :=
      if evs.length = 1 then "1 event" else toString evs.length ++ " events"
    let firstTime := jsSplitHead " - " e0.formattedTime
    let lastEvent := evs.getLast (by simp)
    let lastTime :=
      match jsSplitSecond " - " lastEvent.formattedTime with
      | some t => if t = "" then lastEvent.formattedTime else t
      | none => lastEvent.formattedTime
    greeting ++ " " ++ count ++ " today (" ++ firstTime ++ " - " ++ lastTime ++ "):\n\n"

/-! ### Concrete fixtures

A fixed-offset zone, concrete worlds and users used by the witness and
counterexample theorems. -/

/-- The clock of a zone at a fixed offset (in minutes) east of UTC. -/
def offsetClock (offsetMin : Int) : LocalClock where
  localDate t := (t + offsetMin * 60000) / 86400000
  localHour t := ((t + offsetMin * 60000) % 86400000).toNat / 3600000
  localMinute t := (((t + offsetMin * 60000) % 86400000).toNat / 60000) % 60
  weekdayOf _ := "Monday"
  hour_lt t := by
    have h2 : (0:Int) ≤ (t + offsetMin * 60000) % 86400000 :=
      Int.emod_nonneg _ (by norm_num)
    have h1 : (t + offsetMin * 60000) % 86400000 < 86400000 :=
      Int.emod_lt_of_pos _ (by norm_num)
    have h3 : ((t + offsetMin * 60000) % 86400000).toNat < 86400000 := by omega
    exact (Nat.div_lt_iff_lt_mul (by norm_num)).mpr (by omega)

/-- Brisbane: UTC+10, no daylight saving. -/
def brisbane : LocalClock := offsetClock 600

/-- A healthy world: Brisbane resolves, the token refresh succeeds, the
provider returns no events, Claude is not configured, every SMS succeeds.
`now` is 21:00 UTC on day 0, which is 07:00 Brisbane time on day 1. -/
def wHappy : World where
  tzdb := fun s => if s = "Australia/Brisbane" then some brisbane else none
  sysClock := offsetClock 0
  now := 21 * 3600000
  decrypt := fun s => .ok s
  acquireToken := .ok (some "tok")
  refreshUpdateOk := true
  provider := .ok []
  claudeConfigured := false
  claudeApi := .error "disabled"
  sms := fun _ => .ok "SID123"

/-- A configured user due at 07:00 Brisbane time, never yet served. -/
def uHappy : StoredUser where
  id := "u1"
  email := "alex@example.com"
  phone := "+61400000001"
  accessToken := "enc"
  tokenExpiresAt := 999999999999
  timezone := some "Australia/Brisbane"
  smsTime := "07:00"
  isActive := true
  messageStyle := .professional
  familyMembers := []
  manualEvents := []
  smsHistory := []
  lastSmsSentDate := none

/-- The same world one hour later: 08:00 Brisbane time, same local date. -/
def wLater : World := { wHappy with now := 22 * 3600000 }

/-- A world whose transport rejects the primary number only. -/
def wFail : World :=
  { wHappy with sms := fun p => if p = "+61400000001" then .error "boom" else .ok "S" }

/-- `uHappy` with one active family member. -/
def uFam : StoredUser :=
  { uHappy with familyMembers := [⟨"f1", "Bea", "+61400000002", true⟩] }

/-- `uHappy` with two active family members. -/
def uFam2 : StoredUser :=
  { uHappy with familyMembers :=
      [⟨"f1", "Bea", "+61400000002", true⟩, ⟨"f2", "Carl", "+61400000003", true⟩] }

/-- A world whose transport rejects exactly the second family member. -/
def wC5 : World :=
  { wHappy with sms := fun p => if p = "+61400000003" then .error "boom" else .ok "SID123" }

/-- A world where silent token acquisition fails. -/
def wReauth : World := { wHappy with acquireToken := .error "no cached account" }

/-- `uHappy` with a token that is already expiring, forcing a refresh. -/
def uReauth : StoredUser := { uHappy with tokenExpiresAt := 21 * 3600000 }

/-- A world where the provider fetch itself fails. -/
def wOutage : World := { wHappy with provider := .error "503 service unavailable" }

/-- A world with Claude configured but its API call failing. -/
def wClaude : World :=
  { wHappy with claudeConfigured := true, claudeApi := .error "timeout" }

/-- A user whose stored record lacks the timezone field, due at 21:00 in the
process's zone (UTC here). -/
def uNoTz : StoredUser := { uHappy with timezone := none, smsTime := "21:00" }

/-- An event starting at hour `h` UTC on day 0. -/
def mkEv (h : Nat) (t : String) : FormattedEvent :=
  ⟨t, (h : Int) * 3600000, (h : Int) * 3600000 + 3600000, none, false, "9:00 AM - 10:00 AM"⟩

/-- Five events: three in the morning, two in the afternoon (process-local). -/
def evs5 : List FormattedEvent :=
  [mkEv 8 "a", mkEv 9 "b", mkEv 10 "c", mkEv 13 "d", mkEv 14 "e"]

/-- `uHappy` with one manual event starting inside the next 24 hours. -/
def uManual : StoredUser :=
  { uHappy with manualEvents :=
      [⟨"m1", "Dentist", 22 * 3600000, 23 * 3600000, none, false, "Bea"⟩] }

/-! ### String-splitting lemmas -/

theorem breakFirstL_single (c0 : Char) (a b : List Char) (ha : c0 ∉ a) :
    breakFirstL [c0] (a ++ c0 :: b) = some (a, b) := by
  induction a with
  | nil => simp [breakFirstL, List.isPrefixOf]
  | cons x a' ih =>
    have hx : x ≠ c0 := by
      intro hcontra; exact ha (by simp [hcontra])
    have ha' : c0 ∉ a' := fun hmem => ha (by simp [hmem])
    simp only [List.cons_append, breakFirstL]
    rw [if_neg]
    · simp only [List.append_eq]
      rw [ih ha']
      rfl
    · simp [List.isPrefixOf]
      intro hcontra
      exact absurd hcontra.symm hx

theorem data_append3 (pre mid post : String) :
    (pre ++ mid ++ post).data = pre.data ++ mid.data ++ post.data := by
  simp [String.data_append]

theorem jsSplitHead_colon (pre post : String) (hpre : ':' ∉ pre.data) :
    jsSplitHead ":" (pre ++ ":" ++ post) = pre := by
  unfold jsSplitHead
  have h1 : (":" : String).data = [':'] := by decide
  have hd : (pre ++ ":" ++ post).data = pre.data ++ ':' :: post.data := by
    rw [data_append3, h1]; simp
  rw [hd, h1, breakFirstL_single ':' pre.data post.data hpre]

theorem colon_not_mem_two (h : Nat) (hlt : h < 24) : ':' ∉ (two h).data := by
  have key : ∀ p : Fin 24, ':' ∉ (two p.val).data := by decide
  exact key ⟨h, hlt⟩

theorem two_beq_of_lt24 (a b : Nat) (ha : a < 24) (hb : b < 24) :
    (two a == two b) = decide (a = b) := by
  have key : ∀ p q : Fin 24, (two p.val == two q.val) = decide (p.val = q.val) := by decide
  exact key ⟨a, ha⟩ ⟨b, hb⟩

/-! ### Gate lemmas -/

theorem checkIfTimeToSend_eq (w : World) (u : StoredUser) (c : LocalClock)
    (hh : Nat) (restStr : String)
    (hres : resolveClock w u.timezone = some c)
    (hsms : u.smsTime = two hh ++ ":" ++ restStr)
    (hlt : hh < 24) :
    checkIfTimeToSend w u = decide (c.localHour w.now = hh) := by
  unfold checkIfTimeToSend
  rw [hres]
  simp only []
  rw [hsms]
  rw [jsSplitHead_colon (two (c.localHour w.now)) (two (c.localMinute w.now))
        (colon_not_mem_two _ (c.hour_lt w.now))]
  rw [jsSplitHead_colon (two hh) restStr (colon_not_mem_two _ hlt)]
  exact two_beq_of_lt24 _ _ (c.hour_lt w.now) hlt

theorem processUser_dispatched_iff (w : World) (u : StoredUser) :
    (∃ tr, processUser w u = .dispatched tr) ↔
      (checkIfTimeToSend w u = true ∧ sentToday w u = .ok false) := by
  unfold processUser
  cases hst : sentToday w u with
  | error e => simp
  | ok b =>
    cases hss : checkIfTimeToSend w u <;> cases b <;> simp

theorem sentToday_ok_false_iff (w : World) (u : StoredUser) (c : LocalClock)
    (hres : resolveClock w u.timezone = some c) :
    (sentToday w u = .ok false ↔
      ∀ last, u.lastSmsSentDate = some last →
        c.localDate last ≠ c.localDate w.now) := by
  unfold sentToday
  cases hl : u.lastSmsSentDate with
  | none => simp
  | some last => rw [hres]; simp

theorem gate_core (w : World) (u : StoredUser) (c : LocalClock) (hh : Nat)
    (restStr : String)
    (hres : resolveClock w u.timezone = some c)
    (hsms : u.smsTime = two hh ++ ":" ++ restStr)
    (hlt : hh < 24) :
    (∃ tr, processUser w u = .dispatched tr) ↔
      (c.localHour w.now = hh ∧
       ∀ last, u.lastSmsSentDate = some last →
         c.localDate last ≠ c.localDate w.now) := by
  rw [processUser_dispatched_iff,
      checkIfTimeToSend_eq w u c hh restStr hres hsms hlt,
      sentToday_ok_false_iff w u c hres]
  simp

theorem gate_closed_on_invalid_tz (w : World) (u : StoredUser) (tz : String)
    (htz : u.timezone = some tz) (hbad : w.tzdb tz = none) :
    ∀ tr, processUser w u ≠ .dispatched tr := by
  intro tr hcontra
  have hss : checkIfTimeToSend w u = false := by
    unfold checkIfTimeToSend
    rw [htz]
    simp [resolveClock, hbad]
  have := (processUser_dispatched_iff w u).mp ⟨tr, hcontra⟩
  rw [hss] at this
  exact absurd this.1 (by simp)

/-! ### Dispatch lemmas -/

theorem famFold_attempts (w : World) (msg nm : String) (sty : MessageStyle) (n : Nat) :
    ∀ (members : List FamilyMember) (st : LoopState),
      (members.foldl (familyStep w msg nm sty n) st).attempts =
        st.attempts ++ members.map (attOf w msg nm) := by
  intro members
  induction members with
  | nil => intro st; simp
  | cons m rest ih =>
    intro st
    rw [List.foldl_cons, ih]
    unfold familyStep attOf
    cases hs : w.sms m.phone with
    | ok sid => simp [sendSMS, hs, exceptOk]
    | error e => simp [sendSMS, hs, exceptOk]

theorem famFold_history (w : World) (msg nm : String) (sty : MessageStyle) (n : Nat) :
    ∀ (members : List FamilyMember) (st : LoopState),
      (members.foldl (familyStep w msg nm sty n) st).historyAdded =
        st.historyAdded ++
          (members.filter (fun m => exceptOk (w.sms m.phone))).map (entryOf msg nm sty n) := by
  intro members
  induction members with
  | nil => intro st; simp
  | cons m rest ih =>
    intro st
    rw [List.foldl_cons, ih]
    unfold familyStep entryOf
    cases hs : w.sms m.phone with
    | ok sid => simp [sendSMS, hs, exceptOk]
    | error e => simp [sendSMS, hs, exceptOk]

theorem famFold_user_timezone (w : World) (msg nm : String) (sty : MessageStyle) (n : Nat) :
    ∀ (members : List FamilyMember) (st : LoopState),
      (members.foldl (familyStep w msg nm sty n) st).user.timezone = st.user.timezone := by
  intro members
  induction members with
  | nil => intro st; rfl
  | cons m rest ih =>
    intro st
    rw [List.foldl_cons, ih]
    unfold familyStep
    cases hs : w.sms m.phone with
    | ok sid => simp [sendSMS, hs, addSmsHistory]
    | error e => simp [sendSMS, hs]

theorem dispatch_ok_components (w : World) (u : StoredUser) (evs : List FormattedEvent)
    (sid : String)
    (hp : u.phone ≠ "") (hev : getEventsForNext24Hours w u = .ok evs)
    (hsms : w.sms u.phone = .ok sid) :
    (sendDailySummary w u).result = .ok sid ∧
    (sendDailySummary w u).attempts =
      ⟨u.phone, dispatchMsg w u evs, true⟩ ::
        (activeOf u).map (attOf w (dispatchMsg w u evs) (dispatchName u)) ∧
    (sendDailySummary w u).historyAdded =
      ⟨dispatchMsg w u evs, u.phone, none, u.messageStyle, evs.length⟩ ::
        ((activeOf u).filter (fun m => exceptOk (w.sms m.phone))).map
          (entryOf (dispatchMsg w u evs) (dispatchName u) u.messageStyle evs.length) ∧
    (sendDailySummary w u).userAfter.lastSmsSentDate = some w.now ∧
    (sendDailySummary w u).userAfter.timezone = u.timezone := by
  unfold sendDailySummary
  rw [if_neg hp, hev]
  simp only [sendSMS, hsms]
  refine ⟨trivial, ?_, ?_, trivial, ?_⟩
  · rw [famFold_attempts]
    rfl
  · rw [famFold_history]
    rfl
  · rw [famFold_user_timezone]
    rfl

theorem dispatch_primaryFail_spec (w : World) (u : StoredUser)
    (evs : List FormattedEvent) (e : String)
    (hp : u.phone ≠ "") (hev : getEventsForNext24Hours w u = .ok evs)
    (hsms : w.sms u.phone = .error e) :
    sendDailySummary w u =
      ⟨[⟨u.phone, dispatchMsg w u evs, false⟩], [], u,
       .error ("Failed to send daily summary: Failed to send SMS: " ++ e)⟩ := by
  unfold sendDailySummary
  rw [if_neg hp, hev]
  simp only [sendSMS, hsms]
  rfl

theorem dispatch_fetchFail_spec (w : World) (u : StoredUser) (e : String)
    (hp : u.phone ≠ "") (hev : getEventsForNext24Hours w u = .error e) :
    sendDailySummary w u = ⟨[], [], u, .error ("Failed to send daily summary: " ++ e)⟩ := by
  unfold sendDailySummary
  rw [if_neg hp, hev]

theorem refresh_fails_reauth (w : World) (u : StoredUser) (e : String)
    (hacq : w.acquireToken = .error e) :
    refreshAccessToken w u =
      .error "Failed to refresh access token. User may need to re-authenticate." := by
  unfold refreshAccessToken
  cases hd : w.decrypt u.accessToken with
  | error e2 => rfl
  | ok s => rw [hacq]

theorem getEvents_reauth (w : World) (u : StoredUser) (e : String)
    (hexp : u.tokenExpiresAt - w.now < 5 * 60 * 1000)
    (hacq : w.acquireToken = .error e) :
    getEventsForNext24Hours w u = .error "Failed to fetch calendar events" := by
  unfold getEventsForNext24Hours ensureValidToken
  rw [if_pos hexp, refresh_fails_reauth w u e hacq]
  rfl

theorem dispatch_result_ok_user (w : World) (u : StoredUser) (sid : String)
    (h : (sendDailySummary w u).result = .ok sid) :
    (sendDailySummary w u).userAfter.lastSmsSentDate = some w.now ∧
    (sendDailySummary w u).userAfter.timezone = u.timezone := by
  by_cases hp : u.phone = ""
  · exfalso
    unfold sendDailySummary at h
    rw [if_pos hp] at h
    simp at h
  · cases hev : getEventsForNext24Hours w u with
    | error e =>
      exfalso
      rw [dispatch_fetchFail_spec w u e hp hev] at h
      simp at h
    | ok evs =>
      cases hsms : w.sms u.phone with
      | error e =>
        exfalso
        rw [dispatch_primaryFail_spec w u evs e hp hev hsms] at h
        simp at h
      | ok s =>
        obtain ⟨-, -, -, h4, h5⟩ := dispatch_ok_components w u evs s hp hev hsms
        exact ⟨h4, h5⟩

theorem processUser_dispatched_eq (w : World) (u : StoredUser) (tr : DispatchTrace)
    (h : processUser w u = .dispatched tr) : tr = sendDailySummary w u := by
  unfold processUser at h
  cases hst : sentToday w u with
  | error e => rw [hst] at h; simp at h
  | ok b =>
    rw [hst] at h
    dsimp only at h
    by_cases hcond : (checkIfTimeToSend w u && !b) = true
    · rw [if_pos hcond] at h
      cases h
      rfl
    · rw [if_neg hcond] at h
      simp at h

theorem second_run_skipped (w1 w2 : World) (u : StoredUser) (tr : DispatchTrace)
    (c : LocalClock) (sid : String)
    (hdisp : processUser w1 u = .dispatched tr)
    (hok : tr.result = .ok sid)
    (hres2 : resolveClock w2 u.timezone = some c)
    (hdate : c.localDate w1.now = c.localDate w2.now) :
    sentToday w2 tr.userAfter = .ok true ∧
    processUser w2 tr.userAfter = .skipped ∧
    attemptsOf (processUser w2 tr.userAfter) = [] := by
  have htr : tr = sendDailySummary w1 u := processUser_dispatched_eq w1 u tr hdisp
  subst htr
  obtain ⟨hstamp, htz⟩ := dispatch_result_ok_user w1 u sid hok
  have hsent : sentToday w2 (sendDailySummary w1 u).userAfter = .ok true := by
    unfold sentToday
    rw [hstamp, htz, hres2]
    simp [hdate]
  refine ⟨hsent, ?_, ?_⟩
  · unfold processUser
    rw [hsent]
    simp
  · unfold processUser
    rw [hsent]
    simp [attemptsOf]

/-! ### Formatter lemmas -/

theorem groupFold (w : World) : ∀ (evs : List FormattedEvent) (g : EventGroups),
    evs.foldl (fun g e =>
      let hour := w.sysClock.localHour e.start
      if hour < 12 then { g with morning := g.morning ++ [e] }
      else if hour < 17 then { g with afternoon := g.afternoon ++ [e] }
      else { g with evening := g.evening ++ [e] }) g =
    ⟨g.morning ++ morningOf w evs, g.afternoon ++ afternoonOf w evs,
     g.evening ++ eveningOf w evs⟩ := by
  intro evs
  induction evs with
  | nil => intro g; simp [morningOf, afternoonOf, eveningOf]
  | cons e rest ih =>
    intro g
    rw [List.foldl_cons]
    by_cases h1 : w.sysClock.localHour e.start < 12
    · rw [if_pos h1, ih]
      have h2 : ¬ (12 ≤ w.sysClock.localHour e.start) := by omega
      have h5 : ¬ (17 ≤ w.sysClock.localHour e.start) := by omega
      simp [morningOf, afternoonOf, eveningOf, List.filter_cons, h1, h2, h5]
    · by_cases h2 : w.sysClock.localHour e.start < 17
      · rw [if_neg h1, if_pos h2, ih]
        have h3 : 12 ≤ w.sysClock.localHour e.start := by omega
        have h4 : ¬ (17 ≤ w.sysClock.localHour e.start) := by omega
        simp [morningOf, afternoonOf, eveningOf, List.filter_cons, h1, h2, h3, h4]
      · rw [if_neg h1, if_neg h2, ih]
        have h3 : 17 ≤ w.sysClock.localHour e.start := by omega
        simp [morningOf, afternoonOf, eveningOf, List.filter_cons, h1, h2, h3]

theorem groupEvents_eq_filters (w : World) (evs : List FormattedEvent) :
    groupEventsByTimeOfDay w evs =
      ⟨morningOf w evs, afternoonOf w evs, eveningOf w evs⟩ := by
  unfold groupEventsByTimeOfDay
  rw [groupFold]
  simp

theorem bulletFold : ∀ (evs : List FormattedEvent) (acc : String),
    evs.foldl (fun acc e => acc ++ "• " ++ formatEventForSMS e ++ "\n") acc =
      acc ++ bulletLines evs := by
  intro evs
  induction evs with
  | nil => intro acc; simp [bulletLines]
  | cons e rest ih =>
    intro acc
    rw [List.foldl_cons, ih, bulletLines]
    simp [String.append_assoc]

theorem numFold : ∀ (evs : List FormattedEvent) (i : Nat) (acc : String),
    (List.enumFrom i evs).foldl
        (fun acc p => acc ++ toString (p.1 + 1) ++ ". " ++ formatEventForSMS p.2 ++ "\n") acc =
      acc ++ numberedFrom i evs := by
  intro evs
  induction evs with
  | nil => intro i acc; simp [numberedFrom]
  | cons e rest ih =>
    intro i acc
    rw [List.enumFrom, List.foldl_cons, ih, numberedFrom]
    simp [String.append_assoc]

theorem sectionFoldEq (labFull lab : String) (hlab : labFull = lab ++ " (")
    (evs : List FormattedEvent) (trailing : String) :
    (if evs.length > 0 then
       evs.foldl (fun acc e => acc ++ "• " ++ formatEventForSMS e ++ "\n")
         (labFull ++ toString evs.length ++ "):\n") ++ trailing
     else "") = sectionBlock lab evs trailing := by
  subst hlab
  unfold sectionBlock
  by_cases h : evs.length > 0
  · rw [if_pos h, if_pos h, bulletFold]
  · rw [if_neg h, if_neg h]

theorem sectionFoldEqNoTrail (labFull lab : String) (hlab : labFull = lab ++ " (")
    (evs : List FormattedEvent) :
    (if evs.length > 0 then
       evs.foldl (fun acc e => acc ++ "• " ++ formatEventForSMS e ++ "\n")
         (labFull ++ toString evs.length ++ "):\n")
     else "") = sectionBlock lab evs "" := by
  subst hlab
  unfold sectionBlock
  by_cases h : evs.length > 0
  · rw [if_pos h, if_pos h, bulletFold]
    simp
  · rw [if_neg h, if_neg h]

theorem filterMapComm {α β : Type} (g : α → β) (p : β → Bool) :
    ∀ l : List α, (l.map g).filter p = (l.filter (fun a => p (g a))).map g := by
  intro l
  induction l with
  | nil => rfl
  | cons a rest ih =>
    simp only [List.map_cons, List.filter_cons]
    by_cases h : p (g a) = true
    · rw [if_pos h, if_pos h, List.map_cons, ih]
    · rw [if_neg h, if_neg h, ih]

/-! ### Claims -/

/-- C1: for a fixed account and local calendar date, the gate-then-dispatch
path is idempotent.  If a first run dispatched and the dispatch completed
(returned a SID, hence stamped `lastSmsSentDate` with its instant), then at
any later instant of the same local date — in a world whose timezone
database still resolves the account's zone to the same clock — `sentToday`
returns `true`, the per-user body skips, and no transport attempt is made:
at most one primary send per local date. -/
theorem claim_C1_second_run_not_due (w1 w2 : World) (u : StoredUser)
    (tr : DispatchTrace) (c : LocalClock) (sid : String)
    (hdisp : processUser w1 u = .dispatched tr)
    (hok : tr.result = .ok sid)
    (hres2 : resolveClock w2 u.timezone = some c)
    (hdate : c.localDate w1.now = c.localDate w2.now) :
    sentToday w2 tr.userAfter = .ok true ∧
    processUser w2 tr.userAfter = .skipped ∧
    attemptsOf (processUser w2 tr.userAfter) = [] :=
  second_run_skipped w1 w2 u tr c sid hdisp hok hres2 hdate

/-- Witness for C1: the happy-path account, dispatched at 07:00 Brisbane
time, is skipped at 08:00 on the same Brisbane date. -/
theorem claim_C1_witness :
    sentToday wLater (sendDailySummary wHappy uHappy).userAfter = .ok true ∧
    processUser wLater (sendDailySummary wHappy uHappy).userAfter = .skipped ∧
    attemptsOf (processUser wLater (sendDailySummary wHappy uHappy).userAfter) = [] :=
  claim_C1_second_run_not_due wHappy wLater uHappy (sendDailySummary wHappy uHappy)
    brisbane "SID123" (by decide) (by decide) (by rfl) (by decide)

/-- C2 (amended): `lastSmsSentDate` is stamped with the dispatch instant
exactly when the primary send succeeds; when the primary send fails the
dispatch throws and the account record — including `lastSmsSentDate` — is
unchanged.  The original claim, that the date is stamped after the attempt
regardless of success or failure, is refuted by
`claim_C2_counterexample`. -/
theorem claim_C2_stamp_iff_primary_success (w : World) (u : StoredUser)
    (evs : List FormattedEvent)
    (hp : u.phone ≠ "") (hev : getEventsForNext24Hours w u = .ok evs) :
    (∀ sid, w.sms u.phone = .ok sid →
      (sendDailySummary w u).userAfter.lastSmsSentDate = some w.now) ∧
    (∀ e, w.sms u.phone = .error e → (sendDailySummary w u).userAfter = u) := by
  constructor
  · intro sid hsid
    exact (dispatch_ok_components w u evs sid hp hev hsid).2.2.2.1
  · intro e he
    rw [dispatch_primaryFail_spec w u evs e hp hev he]

/-- Witness for C2: on the happy path the date is stamped. -/
theorem claim_C2_witness :
    (sendDailySummary wHappy uHappy).userAfter.lastSmsSentDate = some wHappy.now :=
  (claim_C2_stamp_iff_primary_success wHappy uHappy [] (by decide) (by decide)).1
    "SID123" (by rfl)

/-- Counterexample to C2 as stated: the primary delivery is attempted (one
failed transport attempt is made) yet `lastSmsSentDate` remains unset, so
the date is not updated "regardless of whether the primary send succeeded
or failed". -/
theorem claim_C2_counterexample :
    (sendDailySummary wFail uHappy).attempts.length = 1 ∧
    (sendDailySummary wFail uHappy).attempts.map (fun a => a.phone) = [uHappy.phone] ∧
    (sendDailySummary wFail uHappy).attempts.map (fun a => a.ok) = [false] ∧
    (sendDailySummary wFail uHappy).userAfter.lastSmsSentDate = none := by decide

/-- C3 (amended): a primary send failure aborts the dispatch.  The only
transport attempt is the failed primary one, no history entry is recorded,
the account record is unchanged and the wrapped transport error propagates
to the caller; in particular no delegate send is attempted.  The original
claim, that delegate sends still happen after a primary failure, is refuted
by `claim_C3_counterexample`. -/
theorem claim_C3_primary_failure_aborts (w : World) (u : StoredUser)
    (evs : List FormattedEvent) (e : String)
    (hp : u.phone ≠ "") (hev : getEventsForNext24Hours w u = .ok evs)
    (hsms : w.sms u.phone = .error e) :
    sendDailySummary w u =
      ⟨[⟨u.phone, dispatchMsg w u evs, false⟩], [], u,
       .error ("Failed to send daily summary: Failed to send SMS: " ++ e)⟩ :=
  dispatch_primaryFail_spec w u evs e hp hev hsms

/-- Witness for C3 (amended): concrete aborted dispatch. -/
theorem claim_C3_witness :
    sendDailySummary wFail uFam =
      ⟨[⟨uFam.phone, dispatchMsg wFail uFam [], false⟩], [], uFam,
       .error ("Failed to send daily summary: Failed to send SMS: " ++ "boom")⟩ :=
  claim_C3_primary_failure_aborts wFail uFam [] "boom" (by decide) (by decide) (by rfl)

/-- Counterexample to C3 as stated: the account has one active delegate, the
primary send throws, and the delegate is never attempted — the only
attempted number is the primary's, nothing is recorded, and the error
propagates. -/
theorem claim_C3_counterexample :
    (activeOf uFam).map (fun m => m.phone) = ["+61400000002"] ∧
    (sendDailySummary wFail uFam).attempts.map (fun a => a.phone) = [uFam.phone] ∧
    (sendDailySummary wFail uFam).historyAdded = [] ∧
    (sendDailySummary wFail uFam).result =
      .error "Failed to send daily summary: Failed to send SMS: boom" := by decide

/-- C4 (amended): for an account whose `smsTime` is canonical `HH:MM` —
(1) when the timezone database resolves the account's zone, the per-user
body dispatches iff the local hour of now equals the configured hour and the
local date of now differs from every recorded last-send date;
(2) an account with an invalid timezone string is never dispatched (the gate
fails closed);
(3) an account whose record lacks the timezone field is evaluated against
the process's own clock — the gate silently falls back to the host zone
rather than failing closed, which is what refutes the claim as stated
(`claim_C4_counterexample`). -/
theorem claim_C4_gate_characterization (w : World) (u : StoredUser) :
    (∀ tz c hh restStr, u.timezone = some tz → w.tzdb tz = some c →
      u.smsTime = two hh ++ ":" ++ restStr → hh < 24 →
      ((∃ tr, processUser w u = .dispatched tr) ↔
        (c.localHour w.now = hh ∧
         ∀ last, u.lastSmsSentDate = some last →
           c.localDate last ≠ c.localDate w.now))) ∧
    (∀ tz, u.timezone = some tz → w.tzdb tz = none →
      ∀ tr, processUser w u ≠ .dispatched tr) ∧
    (u.timezone = none → ∀ hh restStr,
      u.smsTime = two hh ++ ":" ++ restStr → hh < 24 →
      ((∃ tr, processUser w u = .dispatched tr) ↔
        (w.sysClock.localHour w.now = hh ∧
         ∀ last, u.lastSmsSentDate = some last →
           w.sysClock.localDate last ≠ w.sysClock.localDate w.now))) := by
  refine ⟨?_, ?_, ?_⟩
  · intro tz c hh restStr htz hdb hsms hlt
    refine gate_core w u c hh restStr ?_ hsms hlt
    rw [htz]
    exact hdb
  · intro tz htz hbad
    exact gate_closed_on_invalid_tz w u tz htz hbad
  · intro htz hh restStr hsms hlt
    refine gate_core w u w.sysClock hh restStr ?_ hsms hlt
    rw [htz]
    rfl

/-- Witness for C4: the due-iff characterization instantiated on the
Brisbane account at hour 7. -/
theorem claim_C4_witness :
    (∃ tr, processUser wHappy uHappy = .dispatched tr) ↔
      (brisbane.localHour wHappy.now = 7 ∧
       ∀ last, uHappy.lastSmsSentDate = some last →
         brisbane.localDate last ≠ brisbane.localDate wHappy.now) :=
  (claim_C4_gate_characterization wHappy uHappy).1 "Australia/Brisbane" brisbane 7 "00"
    rfl (by rfl) (by decide) (by decide)

/-- Counterexample to C4 as stated: an account with a missing timezone is
not "never due" — with the process clock at its configured hour it is
dispatched and performs a transport attempt, i.e. the gate falls back to the
host zone instead of failing closed. -/
theorem claim_C4_counterexample :
    uNoTz.timezone = none ∧
    processUser wHappy uNoTz = .dispatched (sendDailySummary wHappy uNoTz) ∧
    (sendDailySummary wHappy uNoTz).attempts ≠ [] := by decide

/-- C5: partial failure isolation.  For an account with a primary phone and
at least two active delegates, if the transport rejects exactly one delegate
while the primary send succeeds, then the dispatch returns normally (the
thrown error does not propagate), every active delegate is attempted in
order, and the only failed attempt is the failing delegate's. -/
theorem claim_C5_partial_failure_isolation (w : World) (u : StoredUser)
    (evs : List FormattedEvent) (sid : String) (f : FamilyMember)
    (hp : u.phone ≠ "")
    (hev : getEventsForNext24Hours w u = .ok evs)
    (hprim : w.sms u.phone = .ok sid)
    (hcount : 2 ≤ (activeOf u).length)
    (hfail : (activeOf u).filter (fun m => !(exceptOk (w.sms m.phone))) = [f]) :
    (sendDailySummary w u).result = .ok sid ∧
    (sendDailySummary w u).attempts =
      ⟨u.phone, dispatchMsg w u evs, true⟩ ::
        (activeOf u).map (attOf w (dispatchMsg w u evs) (dispatchName u)) ∧
    (sendDailySummary w u).attempts.filter (fun a => !a.ok) =
      [⟨f.phone, jsReplaceFirst (dispatchMsg w u evs) (dispatchName u) f.name, false⟩] := by
  obtain ⟨h1, h2, h3, h4, h5⟩ := dispatch_ok_components w u evs sid hp hev hprim
  refine ⟨h1, h2, ?_⟩
  rw [h2, List.filter_cons]
  have hokf : exceptOk (w.sms f.phone) = false := by
    have hf : f ∈ (activeOf u).filter (fun m => !(exceptOk (w.sms m.phone))) := by
      rw [hfail]
      exact List.mem_singleton_self f
    have hfp := List.of_mem_filter hf
    simpa using hfp
  rw [if_neg (by simp)]
  rw [filterMapComm (attOf w (dispatchMsg w u evs) (dispatchName u)) (fun a => !a.ok)]
  have hfail2 : (activeOf u).filter
      (fun m => !((attOf w (dispatchMsg w u evs) (dispatchName u) m).ok)) = [f] := hfail
  rw [hfail2]
  simp [attOf, hokf]

/-- Witness for C5: two delegates, the second one failing. -/
theorem claim_C5_witness :
    (sendDailySummary wC5 uFam2).result = .ok "SID123" ∧
    (sendDailySummary wC5 uFam2).attempts =
      ⟨uFam2.phone, dispatchMsg wC5 uFam2 [], true⟩ ::
        (activeOf uFam2).map (attOf wC5 (dispatchMsg wC5 uFam2 []) (dispatchName uFam2)) ∧
    (sendDailySummary wC5 uFam2).attempts.filter (fun a => !a.ok) =
      [⟨"+61400000003",
        jsReplaceFirst (dispatchMsg wC5 uFam2 []) (dispatchName uFam2) "Carl", false⟩] :=
  claim_C5_partial_failure_isolation wC5 uFam2 [] "SID123"
    ⟨"f2", "Carl", "+61400000003", true⟩
    (by decide) (by decide) (by rfl) (by decide) (by decide)

/-- C6: message composition never fails hard.  When Claude is not configured
the deterministic formatter is used directly; when it is configured and
`generateCalendarMessage` fails for any reason, the composer returns the
deterministic formatter's result instead of propagating the error. -/
theorem claim_C6_compose_fallback (w : World) (events : List FormattedEvent)
    (userName : String) (style : MessageStyle) :
    (w.claudeConfigured = false →
      composeStep w events userName style = formatCalendarSummary w events userName) ∧
    (∀ e, generateCalendarMessage w events userName style = .error e →
      composeStep w events userName style = formatCalendarSummary w events userName) := by
  constructor
  · intro h
    unfold composeStep
    rw [h]
    simp
  · intro e he
    unfold composeStep
    cases hc : w.claudeConfigured
    · simp
    · simp [he]

/-- Witness for C6: a timed-out Claude call falls back to the deterministic
formatter. -/
theorem claim_C6_witness :
    composeStep wClaude [] "alex" MessageStyle.professional =
      formatCalendarSummary wClaude [] "alex" :=
  (claim_C6_compose_fallback wClaude [] "alex" .professional).2
    "Failed to generate message: timeout" (by decide)

/-- C7 (amended): when the token is expiring and silent acquisition fails,
the dispatch aborts with zero transport attempts, zero history entries and
an unchanged account record (so `lastSmsSentDate` is not stamped) — but the
surfaced error is the generic wrapped `Failed to fetch calendar events`
message, not a distinguished re-authentication condition; the original
claim's "distinguished re-authentication condition" is refuted by
`claim_C7_counterexample`, which shows the outcome is identical to a plain
provider outage. -/
theorem claim_C7_reauth_aborts_generic (w : World) (u : StoredUser) (e : String)
    (hp : u.phone ≠ "")
    (hexp : u.tokenExpiresAt - w.now < 5 * 60 * 1000)
    (hacq : w.acquireToken = .error e) :
    sendDailySummary w u =
      ⟨[], [], u, .error "Failed to send daily summary: Failed to fetch calendar events"⟩ := by
  rw [dispatch_fetchFail_spec w u _ hp (getEvents_reauth w u e hexp hacq)]
  have hs : ("Failed to send daily summary: " ++ "Failed to fetch calendar events" : String) =
      "Failed to send daily summary: Failed to fetch calendar events" := by decide
  rw [hs]

/-- Witness for C7 (amended): concrete aborted dispatch after a failed
refresh. -/
theorem claim_C7_witness :
    sendDailySummary wReauth uReauth =
      ⟨[], [], uReauth,
       .error "Failed to send daily summary: Failed to fetch calendar events"⟩ :=
  claim_C7_reauth_aborts_generic wReauth uReauth "no cached account"
    (by decide) (by decide) (by rfl)

/-- Counterexample to C7 as stated: the error surfaced after a failed
credential refresh is byte-for-byte the same as the one surfaced after a
provider outage, so no distinguished re-authentication condition reaches the
caller. -/
theorem claim_C7_counterexample :
    (sendDailySummary wReauth uReauth).result =
      .error "Failed to send daily summary: Failed to fetch calendar events" ∧
    (sendDailySummary wOutage uHappy).result =
      (sendDailySummary wReauth uReauth).result := by decide

/-- C8: the account `uManual` has a manual event whose start lies inside the
24-hour window, the provider returns no events, and the fetch returns the
empty list — `getEventsForNext24Hours` never consults `manualEvents` and
`FormattedEvent` carries no source tag, contradicting the README's
"includes both Outlook events and manually created events". -/
theorem claim_C8_manual_events_never_merged :
    uManual.manualEvents ≠ [] ∧
    (∀ m ∈ uManual.manualEvents,
      wHappy.now ≤ m.start ∧ m.start < wHappy.now + 24 * 60 * 60 * 1000) ∧
    getEventsForNext24Hours wHappy uManual = .ok [] := by decide

/-- C9: rendering policy of the deterministic formatter.  For every
non-empty event list the summary is a header, then — when there are more
than four events — a Morning / Afternoon / Evening section layout in which
each non-empty bucket shows its item count and contains exactly the events
whose process-local start hour falls in its range (`<12`, `12` to before
`17`, `≥17`); with four or fewer events, a flat numbered list with exactly
one entry per event; then the closing line.  The grouped buckets are exactly
the hour-threshold filters of the input. -/
theorem claim_C9_formatter_structure (w : World) (events : List FormattedEvent)
    (userName : String) (hne : events ≠ []) :
    groupEventsByTimeOfDay w events =
      ⟨morningOf w events, afternoonOf w events, eveningOf w events⟩ ∧
    formatCalendarSummary w events userName =
      summaryHeader events userName ++
        (if events.length > 4 then
          sectionBlock "Morning" (morningOf w events) "\n" ++
          sectionBlock "Afternoon" (afternoonOf w events) "\n" ++
          sectionBlock "Evening" (eveningOf w events) ""
        else numberedFrom 0 events) ++
        "\nHave a great day!" := by
  refine ⟨groupEvents_eq_filters w events, ?_⟩
  match events, hne with
  | e0 :: rest, _ =>
    unfold formatCalendarSummary summaryHeader
    dsimp only
    rw [groupEvents_eq_filters]
    dsimp only
    rw [sectionFoldEq "Morning (" "Morning" rfl,
        sectionFoldEq "Afternoon (" "Afternoon" rfl,
        sectionFoldEqNoTrail "Evening (" "Evening" rfl]
    rw [show (e0 :: rest).enum = (e0 :: rest).enumFrom 0 from rfl, numFold,
        show ("" : String) ++ numberedFrom 0 (e0 :: rest) = numberedFrom 0 (e0 :: rest) from by simp]

/-- Witness for C9: five events, three morning and two afternoon. -/
theorem claim_C9_witness :
    groupEventsByTimeOfDay wHappy evs5 =
      ⟨morningOf wHappy evs5, afternoonOf wHappy evs5, eveningOf wHappy evs5⟩ ∧
    formatCalendarSummary wHappy evs5 "Alex" =
      summaryHeader evs5 "Alex" ++
        (if evs5.length > 4 then
          sectionBlock "Morning" (morningOf wHappy evs5) "\n" ++
          sectionBlock "Afternoon" (afternoonOf wHappy evs5) "\n" ++
          sectionBlock "Evening" (eveningOf wHappy evs5) ""
        else numberedFrom 0 evs5) ++
        "\nHave a great day!" :=
  claim_C9_formatter_structure wHappy evs5 "Alex" (by decide)

/-- C10: `getAllUsers` is total at its interface.  Every failure of the
storage pipeline — missing connection string, container error, download
error, unparseable content, a failing save of the legacy migration — and
every benign early exit — missing blob, non-array content — yields the empty
list; every exception the body raises is caught and becomes the empty list;
and a scheduler tick over an empty account list performs no dispatches. -/
theorem claim_C10_getAllUsers_never_throws (b : BlobWorld) :
    ((b.connOk = false ∨ b.containerOk = false ∨ b.blobExists = false ∨
      b.downloadOk = false ∨ b.parsed = .fail ∨ b.parsed = .notArray) →
      getAllUsers b = []) ∧
    (∀ users, b.parsed = .array users →
      users.any (fun u => u.mId.isSome && u.uid.isNone) = true → b.saveOk = false →
      getAllUsers b = []) ∧
    (∀ e, getAllUsersBody b = .error e → getAllUsers b = []) ∧
    (∀ w : World, schedulerTick w [] = []) := by
  obtain ⟨c1, c2, c3, c4, p, sv⟩ := b
  refine ⟨?_, ?_, ?_, ?_⟩
  · intro h
    cases c1 <;> cases c2 <;> cases c3 <;> cases c4 <;>
      simp_all [getAllUsers, getAllUsersBody] <;>
      (rcases h with h | h <;> [skip; rcases h with h | h] <;>
        first
          | exact absurd h (by simp)
          | (subst h; rfl)
          | rfl)
  · intro users hp hm hs
    subst hp hs
    cases c1 <;> cases c2 <;> cases c3 <;> cases c4 <;>
      simp [getAllUsers, getAllUsersBody, hm]
  · intro e he
    unfold getAllUsers
    rw [he]
  · intro w
    rfl

/-- Witness for C10: unparseable blob content yields the empty list. -/
theorem claim_C10_witness :
    getAllUsers ⟨true, true, true, true, .fail, true⟩ = [] :=
  (claim_C10_getAllUsers_never_throws ⟨true, true, true, true, .fail, true⟩).1
    (Or.inr (Or.inr (Or.inr (Or.inr (Or.inl rfl)))))
